import Mathlib

/-!
Verification of the SCION TRC parser (lib/crypto/trc.py).

The development shallowly embeds the TRC class and its methods:
ints become Int, Python dicts of strings become association lists
(List (String × String)), bytes become List Nat, and every operation
that can raise a Python exception returns an explicit error value.
The JSON text encoder json.dumps(d, sort_keys=True, indent=4) used for
the canonical serialization is modelled concretely (key sorting by code
points, 4-space indentation, ensure_ascii escaping), because the claims
are about its byte-level output.  The inverse text decoder json.load and
the ed25519 primitive crypto_sign_ed25519_open are external
collaborators and enter as function parameters.
-/

namespace TRCSpec

/-- Lowercase hexadecimal digit characters as used by JSON \uXXXX escapes. -/
def hexDigit : Nat → Char
  | 0 => '0' | 1 => '1' | 2 => '2' | 3 => '3' | 4 => '4' | 5 => '5' | 6 => '6' | 7 => '7'
  | 8 => '8' | 9 => '9' | 10 => 'a' | 11 => 'b' | 12 => 'c' | 13 => 'd' | 14 => 'e' | _ => 'f'

/-- Four hex digits of a (BMP) code unit, as in a JSON \uXXXX escape. -/
def hex4 (n : Nat) : List Char :=
  [hexDigit (n / 4096 % 16), hexDigit (n / 256 % 16), hexDigit (n / 16 % 16), hexDigit (n % 16)]

/-- Escape of one character under json.dumps with ensure_ascii=True: printable
ASCII other than the quote and the backslash is kept, the short escapes cover
the usual control characters, everything else becomes \uXXXX (with a surrogate
pair above the BMP). -/
def escapeChar (c : Char) : List Char :=
  if c = '"' then ['\\', '"']
  else if c = '\\' then ['\\', '\\']
  else if c.toNat = 8 then ['\\', 'b']
  else if c.toNat = 9 then ['\\', 't']
  else if c.toNat = 10 then ['\\', 'n']
  else if c.toNat = 12 then ['\\', 'f']
  else if c.toNat = 13 then ['\\', 'r']
  else if 32 ≤ c.toNat ∧ c.toNat ≤ 126 then [c]
  else if c.toNat < 65536 then '\\' :: 'u' :: hex4 c.toNat
  else ('\\' :: 'u' :: hex4 (55296 + (c.toNat - 65536) / 1024))
    ++ ('\\' :: 'u' :: hex4 (56320 + (c.toNat - 65536) % 1024))

/-- JSON string literal: quote, escaped characters, quote. -/
def quoteStr (s : String) : List Char :=
  '"' :: (s.data.map escapeChar).flatten ++ ['"']

/-- Decimal digits of a natural number (fuel-based, msd first, empty on 0). -/
def natDigitsAux : Nat → Nat → List Char
  | 0, _ => []
  | fuel + 1, n => if n = 0 then [] else natDigitsAux fuel (n / 10) ++ [hexDigit (n % 10)]

/-- Decimal rendering of a natural number. -/
def natRepr (n : Nat) : List Char :=
  if n = 0 then ['0'] else natDigitsAux n n

/-- Decimal rendering of an integer, as Python repr renders int. -/
def intRepr (i : Int) : List Char :=
  if i < 0 then '-' :: natRepr i.natAbs else natRepr i.toNat

/-- Join of chunks with a separator between consecutive chunks. -/
def joinSep (sep : List Char) : List (List Char) → List Char
  | [] => []
  | [x] => x
  | x :: xs => x ++ sep ++ joinSep sep xs

/-- Run of n space characters. -/
def spaces (n : Nat) : List Char := List.replicate n ' '

/-- Three-way lexicographic comparison of character lists by code point,
the order Python uses to compare str values. -/
def cmpChars : List Char → List Char → Ordering
  | [], [] => .eq
  | [], _ :: _ => .lt
  | _ :: _, [] => .gt
  | a :: as, b :: bs =>
    if a.toNat < b.toNat then .lt
    else if b.toNat < a.toNat then .gt
    else cmpChars as bs

/-- Non-strict string comparison by code points (Python a <= b on str). -/
def strLeB (a b : String) : Bool := cmpChars a.data b.data ≠ Ordering.gt

/-- Insertion of a key into a list sorted under strLeB. -/
def keyInsert (k : String) : List String → List String
  | [] => [k]
  | x :: xs => if strLeB k x then k :: x :: xs else x :: keyInsert k xs

/-- Sort of a key list under strLeB, the order sort_keys=True produces. -/
def sortKeys : List String → List String
  | [] => []
  | k :: ks => keyInsert k (sortKeys ks)

/-- Python dict of str to str, embedded as an association list; a dict never
holds two entries for one key, which theorems state as Nodup of the keys. -/
abbrev StrMap := List (String × String)

/-- JSON value shapes that occur in a TRC document: integers, strings and
string-to-string objects. -/
inductive JVal where
  | jint (n : Int)
  | jstr (s : String)
  | jmap (m : StrMap)
deriving DecidableEq

/-- Top-level JSON object of a TRC document. -/
abbrev JObj := List (String × JVal)

/-- Python exceptions that the embedded operations can raise. illTyped marks
inputs outside the typed model (a field value whose JSON shape differs from
the shape the class documents); the other constructors correspond to concrete
Python exception classes. -/
inductive Exn where
  | unicodeEncodeError
  | unicodeDecodeError
  | binasciiError
  | jsonError
  | keyError (k : String)
  | typeError
  | illTyped
deriving DecidableEq

instance {ε α : Type _} [DecidableEq ε] [DecidableEq α] : DecidableEq (Except ε α) := fun a b =>
  match a, b with
  | .error e₁, .error e₂ =>
    if h : e₁ = e₂ then .isTrue (by rw [h])
    else .isFalse (by intro hc; cases hc; exact h rfl)
  | .error _, .ok _ => .isFalse (by intro hc; cases hc)
  | .ok _, .error _ => .isFalse (by intro hc; cases hc)
  | .ok v₁, .ok v₂ =>
    if h : v₁ = v₂ then .isTrue (by rw [h])
    else .isFalse (by intro hc; cases hc; exact h rfl)

/-- Test for a byte that is a base64 alphabet character. -/
def isB64Code (b : Nat) : Bool :=
  (65 ≤ b && b ≤ 90) || (97 ≤ b && b ≤ 122) || (48 ≤ b && b ≤ 57) || b == 43 || b == 47

/-- Value of a base64 alphabet byte. -/
def b64Val (b : Nat) : Nat :=
  if 65 ≤ b ∧ b ≤ 90 then b - 65
  else if 97 ≤ b ∧ b ≤ 122 then b - 71
  else if 48 ≤ b ∧ b ≤ 57 then b + 4
  else if b = 43 then 62 else 63

/-- Decoding of base64 groups of four characters into three bytes, with the
final group allowed to hold two or three characters; a trailing group of one
character is the error Python reports as incorrect padding. -/
def decodeQuads : List Nat → Except Exn (List Nat)
  | [] => .ok []
  | [_] => .error .binasciiError
  | [a, b] => .ok [b64Val a * 4 + b64Val b / 16]
  | [a, b, c] => .ok [b64Val a * 4 + b64Val b / 16, b64Val b % 16 * 16 + b64Val c / 4]
  | a :: b :: c :: d :: rest =>
    match decodeQuads rest with
    | .error e => .error e
    | .ok tail =>
      .ok ([b64Val a * 4 + b64Val b / 16, b64Val b % 16 * 16 + b64Val c / 4,
            b64Val c % 4 * 64 + b64Val d] ++ tail)

/-- Model of base64.standard_b64decode on ascii byte input: characters outside
the alphabet and the padding sign are discarded, the total length must be a
multiple of four, and data characters before the first padding sign are
decoded. -/
def pyB64decode (bs : List Nat) : Except Exn (List Nat) :=
  let cs := bs.filter (fun b => isB64Code b || b == 61)
  if cs.length % 4 ≠ 0 then .error .binasciiError
  else decodeQuads (cs.takeWhile (fun b => b != 61))

/-- Model of str.encode on ascii: code points of the characters, an error when
any character is outside ascii. -/
def encodeAscii (cs : List Char) : Option (List Nat) :=
  if cs.all (fun c => c.toNat < 128) then some (cs.map Char.toNat) else none

/-- Model of bytes.decode on ascii: characters of the bytes, an error when any
byte is 128 or more. -/
def decodeAscii (bs : List Nat) : Option String :=
  if bs.all (fun b => b < 128) then some (String.mk (bs.map Char.ofNat)) else none

/-- Rendered entry of a nested dict at nesting depth one: eight spaces of
indentation, the quoted key, a colon-space separator, the quoted value. -/
def nestedEntry (m : StrMap) (k : String) : List Char :=
  spaces 8 ++ quoteStr k ++ ':' :: ' ' :: quoteStr ((List.lookup k m).getD "")

/-- Rendering of a nested str-to-str dict under json.dumps(·, sort_keys=True,
indent=4) at depth one: an empty dict prints inline, a nonempty one puts each
entry on its own line and closes at four spaces. -/
def dumpNested (m : StrMap) : List Char :=
  if (sortKeys (m.map Prod.fst)).isEmpty then ['\x7b', '\x7d']
  else '\x7b' :: '\n' ::
    (joinSep [',', '\n'] ((sortKeys (m.map Prod.fst)).map (nestedEntry m))
      ++ '\n' :: spaces 4 ++ ['\x7d'])

/-- Rendering of one JSON value at depth one. -/
def dumpJVal : JVal → List Char
  | .jint n => intRepr n
  | .jstr s => quoteStr s
  | .jmap m => dumpNested m

/-- Rendered entry of the top-level object: four spaces of indentation, the
quoted key, colon-space, the value. -/
def topEntry (d : JObj) (k : String) : List Char :=
  spaces 4 ++ quoteStr k ++ ':' :: ' ' :: dumpJVal ((List.lookup k d).getD (JVal.jstr ""))

/-- Rendering of the top-level object under json.dumps(·, sort_keys=True,
indent=4): keys sorted by code point, one entry per line, closing brace in
column zero. -/
def dumpTop (d : JObj) : List Char :=
  if (sortKeys (d.map Prod.fst)).isEmpty then ['\x7b', '\x7d']
  else '\x7b' :: '\n' ::
    (joinSep [',', '\n'] ((sortKeys (d.map Prod.fst)).map (topEntry d)) ++ ['\n', '\x7d'])

/-- TRC document with the fields and types the class documents. -/
structure TRC where
  isd_id : Int
  version : Int
  time : Int
  core_quorum : Int
  trc_quorum : Int
  core_isps : StrMap
  root_cas : StrMap
  core_ads : StrMap
  policies : StrMap
  registry_server_addr : String
  registry_server_cert : String
  root_dns_server_addr : String
  root_dns_server_cert : String
  trc_server_addr : String
  signatures : StrMap
deriving DecidableEq

/-- TRC() without a file: every numeric field zero, every mapping and string
empty (lines 71-88 of trc.py). -/
def TRC.init : TRC :=
  { isd_id := 0, version := 0, time := 0, core_quorum := 0, trc_quorum := 0
    core_isps := [], root_cas := [], core_ads := [], policies := []
    registry_server_addr := "", registry_server_cert := ""
    root_dns_server_addr := "", root_dns_server_cert := ""
    trc_server_addr := "", signatures := [] }

/-- get_trc_dict (lines 92-119): dict of all fields in the literal's insertion
order, with the signatures entry appended only when requested. -/
def TRC.get_trc_dict (t : TRC) (with_signatures : Bool) : JObj :=
  let base : JObj :=
    [("isd_id", .jint t.isd_id),
     ("version", .jint t.version),
     ("time", .jint t.time),
     ("core_quorum", .jint t.core_quorum),
     ("trc_quorum", .jint t.trc_quorum),
     ("core_isps", .jmap t.core_isps),
     ("root_cas", .jmap t.root_cas),
     ("core_ads", .jmap t.core_ads),
     ("policies", .jmap t.policies),
     ("registry_server_addr", .jstr t.registry_server_addr),
     ("registry_server_cert", .jstr t.registry_server_cert),
     ("root_dns_server_addr", .jstr t.root_dns_server_addr),
     ("root_dns_server_cert", .jstr t.root_dns_server_cert),
     ("trc_server_addr", .jstr t.trc_server_addr)]
  if with_signatures then base ++ [("signatures", .jmap t.signatures)] else base

/-- from_values (lines 150-206): every field from the arguments, with time
stamped from the wall clock, which enters here as the argument now. -/
def TRC.from_values (isd_id version core_quorum trc_quorum : Int)
    (core_isps root_cas core_ads policies : StrMap)
    (registry_server_addr registry_server_cert : String)
    (root_dns_server_addr root_dns_server_cert trc_server_addr : String)
    (signatures : StrMap) (now : Int) : TRC :=
  { isd_id := isd_id, version := version, time := now
    core_quorum := core_quorum, trc_quorum := trc_quorum
    core_isps := core_isps, root_cas := root_cas, core_ads := core_ads
    policies := policies
    registry_server_addr := registry_server_addr
    registry_server_cert := registry_server_cert
    root_dns_server_addr := root_dns_server_addr
    root_dns_server_cert := root_dns_server_cert
    trc_server_addr := trc_server_addr, signatures := signatures }

/-- Result of the external json.load call in parse: either the loaded
top-level object, or the ValueError/KeyError/TypeError branch that the
try/except around open and json.load catches. -/
inductive LoadResult where
  | loadError
  | ok (o : JObj)
deriving DecidableEq

/-- Outcome of parse: done is a normal return with the populated document,
logged is the caught load error (message logged, document untouched), raised
is an exception escaping to the caller with the document state at that
point. -/
inductive ParseOutcome where
  | done (t : TRC)
  | logged (t : TRC)
  | raised (t : TRC) (e : Exn)
deriving DecidableEq

/-- Lookup of an int field in the loaded object; a missing key is the KeyError
of the subscript, a different shape leaves the typed model. -/
def getInt (o : JObj) (k : String) : Except Exn Int :=
  match List.lookup k o with
  | none => .error (.keyError k)
  | some (JVal.jint n) => .ok n
  | some _ => .error .illTyped

/-- Lookup of a string field in the loaded object. -/
def getStr (o : JObj) (k : String) : Except Exn String :=
  match List.lookup k o with
  | none => .error (.keyError k)
  | some (JVal.jstr s) => .ok s
  | some _ => .error .illTyped

/-- Lookup of a dict field in the loaded object. -/
def getMap (o : JObj) (k : String) : Except Exn StrMap :=
  match List.lookup k o with
  | none => .error (.keyError k)
  | some (JVal.jmap m) => .ok m
  | some _ => .error .illTyped

/-- One int field assignment of parse: on error the exception escapes with the
document populated so far. -/
def withInt (o : JObj) (k : String) (t : TRC) (set : TRC → Int → TRC)
    (next : TRC → ParseOutcome) : ParseOutcome :=
  match getInt o k with
  | .error e => .raised t e
  | .ok v => next (set t v)

/-- One string field assignment of parse. -/
def withStr (o : JObj) (k : String) (t : TRC) (set : TRC → String → TRC)
    (next : TRC → ParseOutcome) : ParseOutcome :=
  match getStr o k with
  | .error e => .raised t e
  | .ok v => next (set t v)

/-- One dict field assignment of parse. -/
def withMap (o : JObj) (k : String) (t : TRC) (set : TRC → StrMap → TRC)
    (next : TRC → ParseOutcome) : ParseOutcome :=
  match getMap o k with
  | .error e => .raised t e
  | .ok v => next (set t v)

/-- parse (lines 121-148).  The try/except covers only open and json.load;
a load failure logs "TRC: JSON format error." and returns with the document
untouched.  The fifteen subscript assignments run after the try block, in
source order, so a missing key raises KeyError to the caller with every
earlier field already assigned. -/
def TRC.parse (t : TRC) (src : LoadResult) : ParseOutcome :=
  match src with
  | .loadError => .logged t
  | .ok o =>
    withInt o "isd_id" t (fun t v => { t with isd_id := v }) fun t =>
    withInt o "version" t (fun t v => { t with version := v }) fun t =>
    withInt o "time" t (fun t v => { t with time := v }) fun t =>
    withInt o "core_quorum" t (fun t v => { t with core_quorum := v }) fun t =>
    withInt o "trc_quorum" t (fun t v => { t with trc_quorum := v }) fun t =>
    withMap o "core_isps" t (fun t v => { t with core_isps := v }) fun t =>
    withMap o "root_cas" t (fun t v => { t with root_cas := v }) fun t =>
    withMap o "core_ads" t (fun t v => { t with core_ads := v }) fun t =>
    withMap o "policies" t (fun t v => { t with policies := v }) fun t =>
    withStr o "registry_server_addr" t (fun t v => { t with registry_server_addr := v }) fun t =>
    withStr o "registry_server_cert" t (fun t v => { t with registry_server_cert := v }) fun t =>
    withStr o "root_dns_server_addr" t (fun t v => { t with root_dns_server_addr := v }) fun t =>
    withStr o "root_dns_server_cert" t (fun t v => { t with root_dns_server_cert := v }) fun t =>
    withStr o "trc_server_addr" t (fun t v => { t with trc_server_addr := v }) fun t =>
    withMap o "signatures" t (fun t v => { t with signatures := v }) fun t =>
    .done t

/-- Result of get_public_key: emptyStr is the Python return of the empty str
after the warning log for an absent subject, raised is an exception escaping
to the caller, keyBytes is the decoded raw public key. -/
inductive GPKResult where
  | emptyStr
  | raised (e : Exn)
  | keyBytes (k : List Nat)
deriving DecidableEq

/-- get_public_key (lines 208-225).  An absent subject logs a warning and
returns the empty str.  Otherwise the stored blob is ascii-encoded, base64
decoded, ascii-decoded, handed to the external json.loads (the loads
parameter, where none is a raised ValueError), its subject_pub_key entry is
ascii-encoded and base64 decoded; every failure on that path raises. -/
def TRC.get_public_key (t : TRC) (loads : String → Option JVal) (subject : String) : GPKResult :=
  match List.lookup subject t.core_ads with
  | none => .emptyStr
  | some blob =>
    match encodeAscii blob.data with
    | none => .raised .unicodeEncodeError
    | some certBytes =>
      match pyB64decode certBytes with
      | .error e => .raised e
      | .ok decoded =>
        match decodeAscii decoded with
        | none => .raised .unicodeDecodeError
        | some certText =>
          match loads certText with
          | none => .raised .jsonError
          | some (JVal.jmap certObj) =>
            (match List.lookup "subject_pub_key" certObj with
            | none => .raised (.keyError "subject_pub_key")
            | some pk =>
              match encodeAscii pk.data with
              | none => .raised .unicodeEncodeError
              | some pkBytes =>
                match pyB64decode pkBytes with
                | .error e => .raised e
                | .ok raw => .keyBytes raw)
          | some _ => .raised .typeError

/-- data_to_verify of verify (lines 234-236): the unsigned dict, dumped with
sorted keys and indent 4, encoded as ascii bytes. -/
def TRC.data_to_verify (t : TRC) : Option (List Nat) :=
  encodeAscii (dumpTop (t.get_trc_dict false))

/-- Blob handed to the signature primitive (line 243): raw signature bytes
followed by the message bytes. -/
def submittedBlob (raw msg : List Nat) : List Nat := raw ++ msg

/-- Per-signer loop of verify (lines 237-249).  The membership test comes
first and returns False for the whole document; the key extraction and the
base64 decoding of the stored signature run outside the try block, so their
exceptions escape; only the primitive call sits inside the bare except, whose
rejection (p returning false, covering any exception it raises) returns
False.  The emptyStr branch transcribes what Python would do with the empty
str key: the primitive call on it raises TypeError, which the bare except
turns into False; the membership guard makes the branch unreachable. -/
def verifyLoop (t : TRC) (loads : String → Option JVal)
    (p : List Nat → List Nat → Bool) (msg : List Nat) :
    List (String × String) → Except Exn Bool
  | [] => .ok true
  | (signer, sigText) :: rest =>
    if (List.lookup signer t.core_ads).isNone then .ok false
    else
      match t.get_public_key loads signer with
      | .raised e => .error e
      | .emptyStr =>
        (match encodeAscii sigText.data with
         | none => .error .unicodeEncodeError
         | some sigBytes =>
           match pyB64decode sigBytes with
           | .error e => .error e
           | .ok _ => .ok false)
      | .keyBytes pk =>
        match encodeAscii sigText.data with
        | none => .error .unicodeEncodeError
        | some sigBytes =>
          match pyB64decode sigBytes with
          | .error e => .error e
          | .ok raw =>
            if p (submittedBlob raw msg) pk then verifyLoop t loads p msg rest
            else .ok false

/-- verify (lines 227-250): the canonical message is computed once, then each
(signer, signature) pair of the signatures dict is checked in turn; True when
the loop runs out of signers. -/
def TRC.verify (t : TRC) (loads : String → Option JVal)
    (p : List Nat → List Nat → Bool) : Except Exn Bool :=
  match t.data_to_verify with
  | none => .error .unicodeEncodeError
  | some msg => verifyLoop t loads p msg t.signatures

/-- Characters of str(trc) (lines 252-261): the dict with signatures included,
dumped with sorted keys and indent 4. -/
def TRC.toStr (t : TRC) : List Char := dumpTop (t.get_trc_dict true)

/-- Entry of the canonical rendering as the spec words it: 4-space
indentation, quoted key, colon-space, value. -/
def specEntry (k : String) (v : List Char) : List Char :=
  spaces 4 ++ quoteStr k ++ ':' :: ' ' :: v

/-- Canonical message of the spec, built directly from its words: the
document with signatures omitted, keys in lexicographic order at the top
level (written out explicitly here) and inside every nested map, indentation
of four spaces. -/
def canonicalChars (t : TRC) : List Char :=
  '\x7b' :: '\n' ::
  (joinSep [',', '\n']
    [specEntry "core_ads" (dumpNested t.core_ads),
     specEntry "core_isps" (dumpNested t.core_isps),
     specEntry "core_quorum" (intRepr t.core_quorum),
     specEntry "isd_id" (intRepr t.isd_id),
     specEntry "policies" (dumpNested t.policies),
     specEntry "registry_server_addr" (quoteStr t.registry_server_addr),
     specEntry "registry_server_cert" (quoteStr t.registry_server_cert),
     specEntry "root_cas" (dumpNested t.root_cas),
     specEntry "root_dns_server_addr" (quoteStr t.root_dns_server_addr),
     specEntry "root_dns_server_cert" (quoteStr t.root_dns_server_cert),
     specEntry "time" (intRepr t.time),
     specEntry "trc_quorum" (intRepr t.trc_quorum),
     specEntry "trc_server_addr" (quoteStr t.trc_server_addr),
     specEntry "version" (intRepr t.version)] ++ ['\n', '\x7d'])

/-- Canonical message bytes of the spec: the canonical rendering in
single-byte (ascii) encoding. -/
def canonicalMessageSpec (t : TRC) : List Nat :=
  (canonicalChars t).map Char.toNat

/-- Rendering of the document with the signatures entry included, in explicit
lexicographic order; the shape str(trc) produces. -/
def signedChars (t : TRC) : List Char :=
  '\x7b' :: '\n' ::
  (joinSep [',', '\n']
    [specEntry "core_ads" (dumpNested t.core_ads),
     specEntry "core_isps" (dumpNested t.core_isps),
     specEntry "core_quorum" (intRepr t.core_quorum),
     specEntry "isd_id" (intRepr t.isd_id),
     specEntry "policies" (dumpNested t.policies),
     specEntry "registry_server_addr" (quoteStr t.registry_server_addr),
     specEntry "registry_server_cert" (quoteStr t.registry_server_cert),
     specEntry "root_cas" (dumpNested t.root_cas),
     specEntry "root_dns_server_addr" (quoteStr t.root_dns_server_addr),
     specEntry "root_dns_server_cert" (quoteStr t.root_dns_server_cert),
     specEntry "signatures" (dumpNested t.signatures),
     specEntry "time" (intRepr t.time),
     specEntry "trc_quorum" (intRepr t.trc_quorum),
     specEntry "trc_server_addr" (quoteStr t.trc_server_addr),
     specEntry "version" (intRepr t.version)] ++ ['\n', '\x7d'])

/-- Full validity of one (signer, signature) pair of the signatures dict:
the signer is registered in core_ads, its public key extracts cleanly, the
stored signature is ascii and valid base64, and the primitive accepts the
submitted blob under the extracted key. -/
def entryOk (t : TRC) (loads : String → Option JVal) (p : List Nat → List Nat → Bool)
    (msg : List Nat) (e : String × String) : Bool :=
  match List.lookup e.1 t.core_ads with
  | none => false
  | some _ =>
    match t.get_public_key loads e.1 with
    | .keyBytes pk =>
      (match encodeAscii e.2.data with
       | none => false
       | some sigBytes =>
         match pyB64decode sigBytes with
         | .error _ => false
         | .ok raw => p (submittedBlob raw msg) pk)
    | _ => false

/-- Same dict up to iteration order: the two association lists hold the same
entries as a multiset and the first has no repeated key (hence neither does
the second). -/
def MapEquiv (m₁ m₂ : StrMap) : Prop :=
  List.Perm m₁ m₂ ∧ (m₁.map Prod.fst).Nodup

/-- Structural equality of two documents: equal scalar fields and the same
mappings up to iteration order. -/
def TRC.Equiv (t₁ t₂ : TRC) : Prop :=
  t₁.isd_id = t₂.isd_id ∧ t₁.version = t₂.version ∧ t₁.time = t₂.time ∧
  t₁.core_quorum = t₂.core_quorum ∧ t₁.trc_quorum = t₂.trc_quorum ∧
  MapEquiv t₁.core_isps t₂.core_isps ∧ MapEquiv t₁.root_cas t₂.root_cas ∧
  MapEquiv t₁.core_ads t₂.core_ads ∧ MapEquiv t₁.policies t₂.policies ∧
  t₁.registry_server_addr = t₂.registry_server_addr ∧
  t₁.registry_server_cert = t₂.registry_server_cert ∧
  t₁.root_dns_server_addr = t₂.root_dns_server_addr ∧
  t₁.root_dns_server_cert = t₂.root_dns_server_cert ∧
  t₁.trc_server_addr = t₂.trc_server_addr ∧
  MapEquiv t₁.signatures t₂.signatures

/-! Ascii facts: every character the dump emits is below 128, so the final
encode step of the canonical serialization cannot fail. -/

/-- Character list entirely below code point 128. -/
abbrev AsciiList (cs : List Char) : Prop := ∀ c ∈ cs, c.toNat < 128

lemma asciiList_cons {c : Char} {cs : List Char} (h1 : c.toNat < 128)
    (h2 : AsciiList cs) : AsciiList (c :: cs) := by
  intro d hd
  rcases List.mem_cons.mp hd with rfl | hd
  · exact h1
  · exact h2 d hd

lemma asciiList_append {as bs : List Char} (h1 : AsciiList as) (h2 : AsciiList bs) :
    AsciiList (as ++ bs) := by
  intro d hd
  rcases List.mem_append.mp hd with h | h
  · exact h1 d h
  · exact h2 d h

lemma hexDigit_ascii (n : Nat) : (hexDigit n).toNat < 128 := by
  match n with
  | 0 | 1 | 2 | 3 | 4 | 5 | 6 | 7 | 8 | 9 | 10 | 11 | 12 | 13 | 14 | 15 => decide
  | (m + 16) => exact (by decide : ('f').toNat < 128)

lemma hex4_ascii (n : Nat) : AsciiList (hex4 n) := by
  intro c hc
  simp only [hex4, List.mem_cons, List.not_mem_nil, or_false] at hc
  rcases hc with h | h | h | h <;> (subst h; exact hexDigit_ascii _)

lemma escapeChar_ascii (c : Char) : AsciiList (escapeChar c) := by
  intro d hd
  unfold escapeChar at hd
  repeat' split at hd
  all_goals
    simp only [List.mem_cons, List.mem_append, List.not_mem_nil, or_false] at hd
  all_goals
    first
      | (rcases hd with rfl | rfl <;> decide)
      | (subst hd; omega)
      | (rcases hd with rfl | rfl | hmem
         · decide
         · decide
         · exact hex4_ascii _ d hmem)
      | (rcases hd with (rfl | rfl | hmem) | (rfl | rfl | hmem) <;>
          first
            | decide
            | exact hex4_ascii _ d hmem)

lemma quoteStr_ascii (s : String) : AsciiList (quoteStr s) := by
  unfold quoteStr
  refine asciiList_cons (by decide) (asciiList_append ?_ (by decide))
  intro d hd
  rcases List.mem_flatten.mp hd with ⟨cs, hcs, hmem⟩
  rcases List.mem_map.mp hcs with ⟨c, _, rfl⟩
  exact escapeChar_ascii c d hmem

lemma natDigitsAux_ascii (fuel n : Nat) : AsciiList (natDigitsAux fuel n) := by
  induction fuel generalizing n with
  | zero => intro c hc; simp [natDigitsAux] at hc
  | succ f ih =>
    intro c hc
    unfold natDigitsAux at hc
    split at hc
    · simp at hc
    · simp only [List.mem_append, List.mem_cons, List.not_mem_nil, or_false] at hc
      rcases hc with h | rfl
      · exact ih _ c h
      · exact hexDigit_ascii _

lemma natRepr_ascii (n : Nat) : AsciiList (natRepr n) := by
  intro c hc
  unfold natRepr at hc
  split at hc
  · simp only [List.mem_cons, List.not_mem_nil, or_false] at hc; subst hc; decide
  · exact natDigitsAux_ascii _ _ c hc

lemma intRepr_ascii (i : Int) : AsciiList (intRepr i) := by
  intro c hc
  unfold intRepr at hc
  split at hc
  · simp only [List.mem_cons] at hc
    rcases hc with rfl | hc
    · decide
    · exact natRepr_ascii _ c hc
  · exact natRepr_ascii _ c hc

lemma spaces_ascii (n : Nat) : AsciiList (spaces n) := by
  intro c hc
  rw [spaces, List.mem_replicate] at hc
  rw [hc.2]; decide

lemma joinSep_ascii (sep : List Char) (chunks : List (List Char))
    (hsep : AsciiList sep) (hc : ∀ x ∈ chunks, AsciiList x) :
    AsciiList (joinSep sep chunks) := by
  induction chunks with
  | nil => intro c h; simp [joinSep] at h
  | cons x xs ih =>
    cases xs with
    | nil => simpa [joinSep] using hc x (by simp)
    | cons y ys =>
      intro c hmem
      simp only [joinSep, List.mem_append] at hmem
      rcases hmem with (h | h) | h
      · exact hc x (by simp) c h
      · exact hsep c h
      · exact ih (fun z hz => hc z (List.mem_cons_of_mem _ hz)) c h

lemma nestedEntry_ascii (m : StrMap) (k : String) : AsciiList (nestedEntry m k) := by
  unfold nestedEntry
  refine asciiList_append (asciiList_append (spaces_ascii 8) (quoteStr_ascii k)) ?_
  exact asciiList_cons (by decide) (asciiList_cons (by decide) (quoteStr_ascii _))

lemma dumpNested_ascii (m : StrMap) : AsciiList (dumpNested m) := by
  unfold dumpNested
  split
  · decide
  · have h1 : AsciiList (joinSep [',', '\n'] ((sortKeys (m.map Prod.fst)).map (nestedEntry m))) := by
      refine joinSep_ascii _ _ (by decide) ?_
      intro x hx
      rcases List.mem_map.mp hx with ⟨k, _, rfl⟩
      exact nestedEntry_ascii m k
    exact asciiList_cons (by decide) (asciiList_cons (by decide)
      (asciiList_append (asciiList_append h1 (asciiList_cons (by decide) (spaces_ascii 4)))
        (by decide)))

lemma dumpJVal_ascii (v : JVal) : AsciiList (dumpJVal v) := by
  cases v with
  | jint n => exact intRepr_ascii n
  | jstr s => exact quoteStr_ascii s
  | jmap m => exact dumpNested_ascii m

lemma specEntry_ascii (k : String) (v : List Char) (hv : AsciiList v) :
    AsciiList (specEntry k v) := by
  unfold specEntry
  refine asciiList_append (asciiList_append (spaces_ascii 4) (quoteStr_ascii k)) ?_
  exact asciiList_cons (by decide) (asciiList_cons (by decide) hv)

lemma canonicalChars_ascii (t : TRC) : AsciiList (canonicalChars t) := by
  unfold canonicalChars
  refine asciiList_cons (by decide) (asciiList_cons (by decide)
    (asciiList_append ?_ (by decide)))
  refine joinSep_ascii _ _ (by decide) ?_
  intro x hx
  simp only [List.mem_cons, List.not_mem_nil, or_false] at hx
  rcases hx with rfl | rfl | rfl | rfl | rfl | rfl | rfl | rfl | rfl | rfl | rfl | rfl | rfl | rfl <;>
    first
      | exact specEntry_ascii _ _ (dumpNested_ascii _)
      | exact specEntry_ascii _ _ (intRepr_ascii _)
      | exact specEntry_ascii _ _ (quoteStr_ascii _)

lemma encodeAscii_eq (cs : List Char) (h : AsciiList cs) :
    encodeAscii cs = some (cs.map Char.toNat) := by
  unfold encodeAscii
  rw [if_pos]
  rw [List.all_eq_true]
  intro c hc
  exact decide_eq_true (h c hc)

/-! Order facts about the code-point comparison, and determinism of the key
sort: sorting any two permuted duplicate-free key lists gives one list. -/

lemma char_eq_of_toNat {a b : Char} (h : a.toNat = b.toNat) : a = b :=
  Char.ext (UInt32.ext h)

lemma cmpChars_eq : ∀ (as bs : List Char), cmpChars as bs = Ordering.eq → as = bs
  | [], [], _ => rfl
  | [], _ :: _, h => by simp [cmpChars] at h
  | _ :: _, [], h => by simp [cmpChars] at h
  | a :: as, b :: bs, h => by
    unfold cmpChars at h
    by_cases hab : a.toNat < b.toNat
    · simp [hab] at h
    · by_cases hba : b.toNat < a.toNat
      · simp [hab, hba] at h
      · rw [if_neg hab, if_neg hba] at h
        have hd : a = b := char_eq_of_toNat (by omega)
        rw [hd, cmpChars_eq as bs h]

lemma cmpChars_gt_iff : ∀ (as bs : List Char),
    cmpChars as bs = Ordering.gt ↔ cmpChars bs as = Ordering.lt
  | [], [] => by simp [cmpChars]
  | [], _ :: _ => by simp [cmpChars]
  | _ :: _, [] => by simp [cmpChars]
  | a :: as, b :: bs => by
    unfold cmpChars
    by_cases hab : a.toNat < b.toNat
    · have hba : ¬ b.toNat < a.toNat := by omega
      simp [hab, hba]
    · by_cases hba : b.toNat < a.toNat
      · simp [hab, hba]
      · simp [hab, hba, cmpChars_gt_iff as bs]

lemma cmpChars_le_trans : ∀ (as bs cs : List Char),
    cmpChars as bs ≠ Ordering.gt → cmpChars bs cs ≠ Ordering.gt →
    cmpChars as cs ≠ Ordering.gt
  | [], bs, [], _, _ => by simp [cmpChars]
  | [], bs, _ :: _, _, _ => by simp [cmpChars]
  | _ :: _, [], cs, h1, _ => by simp [cmpChars] at h1
  | a :: as, b :: bs, [], _, h2 => by simp [cmpChars] at h2
  | a :: as, b :: bs, c :: cs, h1, h2 => by
    unfold cmpChars at h1 h2 ⊢
    rcases Nat.lt_trichotomy a.toNat b.toNat with hab | hab | hab
    · rcases Nat.lt_trichotomy b.toNat c.toNat with hbc | hbc | hbc
      · simp [show a.toNat < c.toNat by omega]
      · simp [show a.toNat < c.toNat by omega]
      · rw [if_neg (by omega : ¬ b.toNat < c.toNat), if_pos hbc] at h2
        exact absurd rfl h2
    · rw [if_neg (by omega : ¬ a.toNat < b.toNat),
          if_neg (by omega : ¬ b.toNat < a.toNat)] at h1
      rcases Nat.lt_trichotomy b.toNat c.toNat with hbc | hbc | hbc
      · simp [show a.toNat < c.toNat by omega]
      · rw [if_neg (by omega : ¬ b.toNat < c.toNat),
            if_neg (by omega : ¬ c.toNat < b.toNat)] at h2
        rw [if_neg (by omega : ¬ a.toNat < c.toNat),
            if_neg (by omega : ¬ c.toNat < a.toNat)]
        exact cmpChars_le_trans as bs cs h1 h2
      · rw [if_neg (by omega : ¬ b.toNat < c.toNat), if_pos hbc] at h2
        exact absurd rfl h2
    · rw [if_neg (by omega : ¬ a.toNat < b.toNat), if_pos hab] at h1
      exact absurd rfl h1

lemma strLeB_iff (a b : String) : strLeB a b = true ↔ cmpChars a.data b.data ≠ Ordering.gt := by
  simp [strLeB]

lemma strLeB_total (a b : String) : strLeB a b = true ∨ strLeB b a = true := by
  rw [strLeB_iff, strLeB_iff]
  rcases h : cmpChars a.data b.data with _ | _ | _
  · left; simp [h]
  · left; simp [h]
  · right
    rw [(cmpChars_gt_iff _ _).mp h]
    simp

lemma strLeB_antisymm (a b : String) (h1 : strLeB a b = true) (h2 : strLeB b a = true) :
    a = b := by
  rw [strLeB_iff] at h1 h2
  rcases h : cmpChars a.data b.data with _ | _ | _
  · exact absurd ((cmpChars_gt_iff b.data a.data).mpr h) h2
  · have hd := cmpChars_eq _ _ h
    cases a; cases b
    exact congrArg String.mk hd
  · exact absurd h h1

lemma strLeB_trans (a b c : String) (h1 : strLeB a b = true) (h2 : strLeB b c = true) :
    strLeB a c = true := by
  rw [strLeB_iff] at h1 h2 ⊢
  exact cmpChars_le_trans _ _ _ h1 h2

lemma keyInsert_perm (k : String) (l : List String) :
    List.Perm (keyInsert k l) (k :: l) := by
  induction l with
  | nil => exact List.Perm.refl _
  | cons x xs ih =>
    unfold keyInsert
    split
    · exact List.Perm.refl _
    · exact (ih.cons x).trans (List.Perm.swap k x xs)

lemma sortKeys_perm (l : List String) : List.Perm (sortKeys l) l := by
  induction l with
  | nil => exact List.Perm.refl _
  | cons k ks ih => exact (keyInsert_perm k (sortKeys ks)).trans (ih.cons k)

lemma keyInsert_sorted (k : String) (l : List String)
    (h : List.Sorted (fun a b => strLeB a b = true) l) :
    List.Sorted (fun a b => strLeB a b = true) (keyInsert k l) := by
  induction l with
  | nil => simp [keyInsert]
  | cons x xs ih =>
    rw [List.sorted_cons] at h
    unfold keyInsert
    split
    · next hkx =>
      rw [List.sorted_cons]
      refine ⟨?_, List.sorted_cons.mpr h⟩
      intro b hb
      rcases List.mem_cons.mp hb with rfl | hb
      · exact hkx
      · exact strLeB_trans _ _ _ hkx (h.1 b hb)
    · next hkx =>
      have hxk : strLeB x k = true := by
        rcases strLeB_total k x with h' | h'
        · exact absurd h' hkx
        · exact h'
      rw [List.sorted_cons]
      refine ⟨?_, ih h.2⟩
      intro b hb
      have hb' : b ∈ k :: xs := (keyInsert_perm k xs).mem_iff.mp hb
      rcases List.mem_cons.mp hb' with rfl | hb'
      · exact hxk
      · exact h.1 b hb'

lemma sortKeys_sorted (l : List String) :
    List.Sorted (fun a b => strLeB a b = true) (sortKeys l) := by
  induction l with
  | nil => simp [sortKeys]
  | cons k ks ih => exact keyInsert_sorted k _ ih

lemma sortKeys_eq_of_perm (l₁ l₂ : List String) (h : List.Perm l₁ l₂) :
    sortKeys l₁ = sortKeys l₂ := by
  haveI : IsAntisymm String (fun a b => strLeB a b = true) := ⟨strLeB_antisymm⟩
  exact List.eq_of_perm_of_sorted
    ((sortKeys_perm l₁).trans (h.trans (sortKeys_perm l₂).symm))
    (sortKeys_sorted l₁) (sortKeys_sorted l₂)

/-! Lookup facts for association lists with duplicate-free keys. -/

lemma lookup_eq_of_perm (k : String) {m₁ m₂ : StrMap} (h : List.Perm m₁ m₂)
    (nd : (m₁.map Prod.fst).Nodup) : List.lookup k m₁ = List.lookup k m₂ := by
  induction h with
  | nil => rfl
  | cons x h ih =>
    obtain ⟨s, v⟩ := x
    simp only [List.map_cons, List.nodup_cons] at nd
    by_cases hk : k = s
    · simp [List.lookup, hk]
    · have hks : (k == s) = false := beq_false_of_ne hk
      simp [List.lookup, hks, ih nd.2]
  | swap x y l =>
    obtain ⟨s₁, v₁⟩ := x
    obtain ⟨s₂, v₂⟩ := y
    simp only [List.map_cons, List.nodup_cons, List.mem_cons] at nd
    have hne : s₂ ≠ s₁ := fun hc => nd.1 (Or.inl hc)
    by_cases hk2 : k = s₂
    · subst hk2
      have e1 : (k == s₁) = false := beq_false_of_ne hne
      simp [List.lookup, e1]
    · by_cases hk1 : k = s₁
      · subst hk1
        have e2 : (k == s₂) = false := beq_false_of_ne (fun hc => hne hc.symm)
        simp [List.lookup, e2]
      · have e1 : (k == s₁) = false := beq_false_of_ne hk1
        have e2 : (k == s₂) = false := beq_false_of_ne hk2
        simp [List.lookup, e1, e2]
  | trans h₁ h₂ ih₁ ih₂ =>
    have nd₂ : _ := ((h₁.map Prod.fst).nodup_iff).mp nd
    exact (ih₁ nd).trans (ih₂ nd₂)

lemma mapEquiv_lookup {m₁ m₂ : StrMap} (h : MapEquiv m₁ m₂) (k : String) :
    List.lookup k m₁ = List.lookup k m₂ :=
  lookup_eq_of_perm k h.1 h.2

lemma dumpNested_congr {m₁ m₂ : StrMap} (h : MapEquiv m₁ m₂) :
    dumpNested m₁ = dumpNested m₂ := by
  have hks : sortKeys (m₁.map Prod.fst) = sortKeys (m₂.map Prod.fst) :=
    sortKeys_eq_of_perm _ _ (h.1.map Prod.fst)
  have hen : nestedEntry m₁ = nestedEntry m₂ := by
    funext k
    unfold nestedEntry
    rw [mapEquiv_lookup h k]
  unfold dumpNested
  rw [hks, hen]

/-! Shape of the code's dump on a TRC dict: sorting the fourteen (or fifteen)
literal keys evaluates away, leaving the explicit alphabetical rendering. -/

set_option maxHeartbeats 2000000 in
lemma dumpTop_unsigned (t : TRC) : dumpTop (t.get_trc_dict false) = canonicalChars t := rfl

set_option maxHeartbeats 2000000 in
lemma dumpTop_signed (t : TRC) : dumpTop (t.get_trc_dict true) = signedChars t := rfl

lemma dataToVerify_eq (t : TRC) : t.data_to_verify = some (canonicalMessageSpec t) := by
  rw [TRC.data_to_verify, dumpTop_unsigned]
  exact encodeAscii_eq _ (canonicalChars_ascii t)

/-! Behavior of the verification loop. -/

lemma gpk_ne_empty (t : TRC) (loads : String → Option JVal) (s : String)
    (h : (List.lookup s t.core_ads).isNone = false) :
    t.get_public_key loads s ≠ GPKResult.emptyStr := by
  rcases hl : List.lookup s t.core_ads with _ | blob
  · rw [hl] at h; simp at h
  · unfold TRC.get_public_key
    rw [hl]
    repeat' split
    all_goals simp_all

lemma verifyLoop_cons_eq (t : TRC) (loads : String → Option JVal)
    (p : List Nat → List Nat → Bool) (msg : List Nat) (s sigText : String)
    (rest : List (String × String)) :
    verifyLoop t loads p msg ((s, sigText) :: rest) =
      (if (List.lookup s t.core_ads).isNone then .ok false
       else
        match t.get_public_key loads s with
        | .raised e => .error e
        | .emptyStr =>
          (match encodeAscii sigText.data with
           | none => .error .unicodeEncodeError
           | some sigBytes =>
             match pyB64decode sigBytes with
             | .error e => .error e
             | .ok _ => .ok false)
        | .keyBytes pk =>
          match encodeAscii sigText.data with
          | none => .error .unicodeEncodeError
          | some sigBytes =>
            match pyB64decode sigBytes with
            | .error e => .error e
            | .ok raw =>
              if p (submittedBlob raw msg) pk then verifyLoop t loads p msg rest
              else .ok false) := rfl

lemma verifyLoop_cons_of_entryOk (t : TRC) (loads : String → Option JVal)
    (p : List Nat → List Nat → Bool) (msg : List Nat) (s sigText : String)
    (rest : List (String × String))
    (he : entryOk t loads p msg (s, sigText) = true) :
    verifyLoop t loads p msg ((s, sigText) :: rest) = verifyLoop t loads p msg rest := by
  unfold entryOk at he
  rcases hl : List.lookup s t.core_ads with _ | blob
  · simp only [hl] at he; simp at he
  · simp only [hl] at he
    rcases hk : t.get_public_key loads s with _ | e' | pk
    · simp only [hk] at he; simp at he
    · simp only [hk] at he; simp at he
    · simp only [hk] at he
      rcases hs : encodeAscii sigText.data with _ | bs
      · simp only [hs] at he; simp at he
      · simp only [hs] at he
        rcases hb : pyB64decode bs with e' | raw
        · simp only [hb] at he; simp at he
        · simp only [hb] at he
          rw [verifyLoop_cons_eq]
          simp only [hl, Option.isNone_some, Bool.false_eq_true, if_false, hk, hs, hb, he,
            if_true]

lemma verifyLoop_append_ok (t : TRC) (loads : String → Option JVal)
    (p : List Nat → List Nat → Bool) (msg : List Nat)
    (pre l : List (String × String))
    (h : ∀ e ∈ pre, entryOk t loads p msg e = true) :
    verifyLoop t loads p msg (pre ++ l) = verifyLoop t loads p msg l := by
  induction pre with
  | nil => rfl
  | cons e es ih =>
    obtain ⟨s, sigText⟩ := e
    rw [List.cons_append,
        verifyLoop_cons_of_entryOk t loads p msg s sigText _ (h _ (by simp))]
    exact ih (fun e he => h e (List.mem_cons_of_mem _ he))

lemma verifyLoop_ok_true_iff (t : TRC) (loads : String → Option JVal)
    (p : List Nat → List Nat → Bool) (msg : List Nat) (l : List (String × String)) :
    verifyLoop t loads p msg l = .ok true ↔ ∀ e ∈ l, entryOk t loads p msg e = true := by
  induction l with
  | nil => simp [verifyLoop]
  | cons e rest ih =>
    obtain ⟨s, sigText⟩ := e
    constructor
    · intro h
      intro e' he'
      have hstep : entryOk t loads p msg (s, sigText) = true := by
        rw [verifyLoop_cons_eq] at h
        unfold entryOk
        rcases hl : List.lookup s t.core_ads with _ | blob
        · simp only [hl] at h; simp at h
        · simp only [hl, Option.isNone_some, Bool.false_eq_true, if_false] at h
          rcases hk : t.get_public_key loads s with _ | e'' | pk
          · simp only [hk] at h
            rcases hs : encodeAscii sigText.data with _ | bs
            · simp only [hs] at h; simp at h
            · simp only [hs] at h
              rcases hb : pyB64decode bs with e'' | raw
              · simp only [hb] at h; simp at h
              · simp only [hb] at h; simp at h
          · simp only [hk] at h; simp at h
          · simp only [hk] at h
            rcases hs : encodeAscii sigText.data with _ | bs
            · simp only [hs] at h; simp at h
            · simp only [hs] at h
              rcases hb : pyB64decode bs with e'' | raw
              · simp only [hb] at h; simp at h
              · simp only [hb] at h
                by_cases hp : p (submittedBlob raw msg) pk
                · simp only [hl, hk, hs, hb]
                  exact hp
                · simp only [hp, Bool.false_eq_true, if_false] at h
                  simp at h
      rcases List.mem_cons.mp he' with rfl | he'
      · exact hstep
      · have := (ih.mp (by
          rwa [verifyLoop_cons_of_entryOk t loads p msg s sigText rest hstep] at h))
        exact this e' he'
    · intro h
      rw [verifyLoop_cons_of_entryOk t loads p msg s sigText rest (h _ (by simp))]
      exact ih.mpr (fun e he => h e (List.mem_cons_of_mem _ he))

lemma verifyLoop_false_of_absent (t : TRC) (loads : String → Option JVal)
    (p : List Nat → List Nat → Bool) (msg : List Nat) (s sigText : String)
    (rest : List (String × String))
    (habs : List.lookup s t.core_ads = none) :
    verifyLoop t loads p msg ((s, sigText) :: rest) = .ok false := by
  rw [verifyLoop_cons_eq]
  simp [habs]

lemma verifyLoop_false_of_reject (t : TRC) (loads : String → Option JVal)
    (p : List Nat → List Nat → Bool) (msg : List Nat) (s sigText : String)
    (rest : List (String × String)) (blob : String) (pk raw : List Nat) (bs : List Nat)
    (hmem : List.lookup s t.core_ads = some blob)
    (hkey : t.get_public_key loads s = .keyBytes pk)
    (henc : encodeAscii sigText.data = some bs)
    (hb64 : pyB64decode bs = .ok raw)
    (hrej : p (submittedBlob raw msg) pk = false) :
    verifyLoop t loads p msg ((s, sigText) :: rest) = .ok false := by
  rw [verifyLoop_cons_eq]
  simp only [hmem, Option.isNone_some, Bool.false_eq_true, if_false, hkey, henc, hb64, hrej]

lemma canonicalChars_congr {t₁ t₂ : TRC} (h : TRC.Equiv t₁ t₂) :
    canonicalChars t₁ = canonicalChars t₂ := by
  obtain ⟨h1, h2, h3, h4, h5, h6, h7, h8, h9, h10, h11, h12, h13, h14, _⟩ := h
  unfold canonicalChars
  rw [h1, h2, h3, h4, h5, h10, h11, h12, h13, h14,
      dumpNested_congr h6, dumpNested_congr h7, dumpNested_congr h8, dumpNested_congr h9]

lemma signedChars_congr {t₁ t₂ : TRC} (h : TRC.Equiv t₁ t₂) :
    signedChars t₁ = signedChars t₂ := by
  obtain ⟨h1, h2, h3, h4, h5, h6, h7, h8, h9, h10, h11, h12, h13, h14, h15⟩ := h
  unfold signedChars
  rw [h1, h2, h3, h4, h5, h10, h11, h12, h13, h14,
      dumpNested_congr h6, dumpNested_congr h7, dumpNested_congr h8, dumpNested_congr h9,
      dumpNested_congr h15]

lemma parse_of_get_trc_dict (t : TRC) :
    TRC.parse TRC.init (LoadResult.ok (t.get_trc_dict true)) = ParseOutcome.done t := rfl

/-- External json.loads stub for concrete witnesses: every certificate text
resolves to an object binding subject_pub_key to the empty base64 text. -/
def loadsStub : String → Option JVal := fun _ => some (JVal.jmap [("subject_pub_key", "")])

/-! Claim theorems. -/

/-- C1: for every document and every signer, the byte string verify submits to
the signature primitive is the raw base64-decoded signature bytes followed by
the canonical message bytes, where the canonical message is the document
serialized without signatures, keys sorted lexicographically at every nesting
level, indentation 4, single-byte ascii encoding.  The blob verify builds for
each signer is submittedBlob raw msg with msg the bytes of data_to_verify,
and that message always equals the spec-side canonicalMessageSpec. -/
theorem claim_verify_submits_canonical (t : TRC) (raw msg : List Nat)
    (h : t.data_to_verify = some msg) :
    submittedBlob raw msg = raw ++ canonicalMessageSpec t := by
  have h3 : msg = canonicalMessageSpec t :=
    Option.some_inj.mp (h.symm.trans (dataToVerify_eq t))
  rw [submittedBlob, h3]

set_option maxRecDepth 10000 in
theorem claim_verify_submits_canonical_witness :
    submittedBlob [7] (canonicalMessageSpec TRC.init) =
      [7] ++ canonicalMessageSpec TRC.init :=
  claim_verify_submits_canonical TRC.init [7] (canonicalMessageSpec TRC.init) (by decide)

/-- C2: a signatures entry whose key is absent from core_ads makes verify
return false for the whole document, immediately: entries before it may be
arbitrary valid ones and entries after it are never examined (rest is
universally quantified, including entries that would raise). -/
theorem claim_missing_signer_fails (t : TRC) (loads : String → Option JVal)
    (p : List Nat → List Nat → Bool) (s sigText : String)
    (pre rest : List (String × String))
    (hsig : t.signatures = pre ++ (s, sigText) :: rest)
    (hpre : ∀ e ∈ pre, entryOk t loads p (canonicalMessageSpec t) e = true)
    (habs : List.lookup s t.core_ads = none) :
    t.verify loads p = .ok false := by
  unfold TRC.verify
  simp only [dataToVerify_eq]
  rw [hsig, verifyLoop_append_ok t loads p _ pre _ hpre,
      verifyLoop_false_of_absent t loads p _ s sigText rest habs]

set_option maxRecDepth 10000 in
theorem claim_missing_signer_fails_witness :
    ({ TRC.init with
        core_ads := [("AD1", "")],
        signatures := [("AD1", ""), ("ZZ", "x")] } : TRC).verify loadsStub
      (fun _ _ => true) = .ok false :=
  claim_missing_signer_fails _ loadsStub (fun _ _ => true) "ZZ" "x"
    [("AD1", "")] [] rfl (by decide) rfl

set_option maxRecDepth 10000 in
/-- C3 counterexample: a signature entry whose stored text is not valid base64
makes verify raise (the base64 decode happens outside the try block), so not
every verification failure is reported as the boolean false: here the result
is a raised binascii error, not .ok false. -/
theorem claim_exception_collapse_cex :
    ({ TRC.init with
        core_ads := [("AD1", "")],
        signatures := [("AD1", "A")] } : TRC).verify loadsStub
      (fun _ _ => true) = .error .binasciiError := by decide

/-- C3 amended: when the primitive itself rejects a submitted
signature-plus-message blob (after clean membership, key extraction, ascii
encode and base64 decode, with every earlier entry valid), verify returns
false rather than raising; but failures of the pre-submission steps (non-ascii
or invalid-base64 signature text, malformed certificates) escape verify as
raised exceptions. -/
theorem claim_exception_collapse_amended (t : TRC) (loads : String → Option JVal)
    (p : List Nat → List Nat → Bool) (s sigText blob : String)
    (pre rest : List (String × String)) (pk bs raw : List Nat)
    (hsig : t.signatures = pre ++ (s, sigText) :: rest)
    (hpre : ∀ e ∈ pre, entryOk t loads p (canonicalMessageSpec t) e = true)
    (hmem : List.lookup s t.core_ads = some blob)
    (hkey : t.get_public_key loads s = .keyBytes pk)
    (henc : encodeAscii sigText.data = some bs)
    (hb64 : pyB64decode bs = .ok raw)
    (hrej : p (submittedBlob raw (canonicalMessageSpec t)) pk = false) :
    t.verify loads p = .ok false := by
  unfold TRC.verify
  simp only [dataToVerify_eq]
  rw [hsig, verifyLoop_append_ok t loads p _ pre _ hpre,
      verifyLoop_false_of_reject t loads p _ s sigText rest blob pk raw bs hmem hkey henc
        hb64 hrej]

set_option maxRecDepth 10000 in
theorem claim_exception_collapse_amended_witness :
    ({ TRC.init with
        core_ads := [("AD1", "")],
        signatures := [("AD1", "")] } : TRC).verify loadsStub
      (fun _ _ => false) = .ok false :=
  claim_exception_collapse_amended _ loadsStub (fun _ _ => false) "AD1" "" "" [] [] [] [] []
    rfl (by decide) rfl (by decide) rfl rfl rfl

/-- C4 counterexample: key extraction for a subject absent from core_ads
returns the empty string silently (not an explicit SubjectNotFound failure),
and for a present subject whose blob is not valid base64 it raises an
exception to the caller (not an explicit MalformedCertificate failure). -/
theorem claim_key_extraction_cex :
    TRC.init.get_public_key loadsStub "AD1" = .emptyStr ∧
    ({ TRC.init with core_ads := [("AD1", "A")] } : TRC).get_public_key loadsStub "AD1"
      = .raised .binasciiError := ⟨by decide, by decide⟩

/-- C4 amended: for a subject absent from core_ads, get_public_key logs a
warning and returns the empty string (a silent empty result); for a present
subject the outcome is either the decoded key bytes or a raised exception
(base64, ascii, json or missing-field failure), never the silent empty
result. -/
theorem claim_key_extraction_amended (t : TRC) (loads : String → Option JVal)
    (s : String) :
    (List.lookup s t.core_ads = none → t.get_public_key loads s = .emptyStr) ∧
    (∀ blob, List.lookup s t.core_ads = some blob →
      (∃ k, t.get_public_key loads s = .keyBytes k) ∨
      (∃ e, t.get_public_key loads s = .raised e)) := by
  constructor
  · intro h
    unfold TRC.get_public_key
    rw [h]
  · intro blob h
    unfold TRC.get_public_key
    simp only [h]
    repeat' split
    all_goals
      first
        | exact Or.inl ⟨_, rfl⟩
        | exact Or.inr ⟨_, rfl⟩

theorem claim_key_extraction_amended_witness :
    TRC.init.get_public_key loadsStub "XY" = .emptyStr :=
  (claim_key_extraction_amended TRC.init loadsStub "XY").1 rfl

/-- C5: evaluation of parse at the failing input.  On a malformed source the
load error is caught, logged and the document left in its zero state; but on a
well-formed source missing a required top-level key (here everything after
isd_id), parse raises KeyError to the caller with the earlier fields already
populated, contradicting the claim that it logs, raises nothing and leaves the
all-zero state. -/
theorem claim_parse_unit_failure_behavior :
    TRC.parse TRC.init LoadResult.loadError = ParseOutcome.logged TRC.init ∧
    TRC.parse TRC.init (LoadResult.ok [("isd_id", JVal.jint 5)]) =
      ParseOutcome.raised { TRC.init with isd_id := 5 } (Exn.keyError "version") :=
  ⟨by decide, by decide⟩

/-- C6: verify performs no threshold comparison against core_quorum or
trc_quorum; it returns true exactly when every entry of the signatures dict is
fully valid, whatever the quorum fields hold and however many signers there
are. -/
theorem claim_no_quorum_check (t : TRC) (loads : String → Option JVal)
    (p : List Nat → List Nat → Bool) :
    t.verify loads p = .ok true ↔
      ∀ e ∈ t.signatures, entryOk t loads p (canonicalMessageSpec t) e = true := by
  unfold TRC.verify
  simp only [dataToVerify_eq]
  exact verifyLoop_ok_true_iff t loads p (canonicalMessageSpec t) t.signatures

/-- C7: a document with an empty signatures dict verifies true. -/
theorem claim_empty_signatures_verify_true (t : TRC) (loads : String → Option JVal)
    (p : List Nat → List Nat → Bool) (h : t.signatures = []) :
    t.verify loads p = .ok true := by
  unfold TRC.verify
  simp only [dataToVerify_eq, h]
  rfl

set_option maxRecDepth 10000 in
theorem claim_empty_signatures_verify_true_witness :
    ({ TRC.init with core_quorum := 5 } : TRC).verify loadsStub (fun _ _ => false)
      = .ok true :=
  claim_empty_signatures_verify_true _ loadsStub (fun _ _ => false) rfl

/-- C8: structurally equal documents (equal scalar fields, same mappings up to
iteration order with duplicate-free keys) serialize to byte-identical output,
both for the signed rendering of str and for the unsigned canonical message of
verify. -/
theorem claim_canonical_serialization_deterministic (t₁ t₂ : TRC)
    (h : TRC.Equiv t₁ t₂) :
    t₁.toStr = t₂.toStr ∧ t₁.data_to_verify = t₂.data_to_verify := by
  constructor
  · unfold TRC.toStr
    rw [dumpTop_signed, dumpTop_signed]
    exact signedChars_congr h
  · rw [dataToVerify_eq, dataToVerify_eq]
    unfold canonicalMessageSpec
    rw [canonicalChars_congr h]

/-- Concrete document pair for the determinism witness: same entries, reversed
iteration order in three map fields. -/
def docA : TRC :=
  { TRC.init with
    core_ads := [("a", "1"), ("b", "2")],
    policies := [("p1", "v1"), ("p2", "v2")],
    signatures := [("s", "x"), ("u", "y")] }

/-- Reordered twin of docA. -/
def docB : TRC :=
  { TRC.init with
    core_ads := [("b", "2"), ("a", "1")],
    policies := [("p2", "v2"), ("p1", "v1")],
    signatures := [("u", "y"), ("s", "x")] }

theorem claim_canonical_serialization_deterministic_witness :
    docA.toStr = docB.toStr ∧ docA.data_to_verify = docB.data_to_verify :=
  claim_canonical_serialization_deterministic docA docB (by
    unfold TRC.Equiv MapEquiv docA docB
    refine ⟨rfl, rfl, rfl, rfl, rfl, ?_, ?_, ?_, ?_, rfl, rfl, rfl, rfl, rfl, ?_⟩ <;>
      exact ⟨by decide, by decide⟩)

/-- C9: constructing a document from field values (with the wall clock
entering as now), rendering it with signatures included, loading the rendered
text back through the external json primitive (assumed to invert the dump, the
hypothesis hload) and parsing reproduces exactly the constructed document,
whose fields are the original values with time = now. -/
theorem claim_round_trip (isd_id version core_quorum trc_quorum : Int)
    (core_isps root_cas core_ads policies : StrMap)
    (registry_server_addr registry_server_cert : String)
    (root_dns_server_addr root_dns_server_cert trc_server_addr : String)
    (signatures : StrMap) (now : Int) (load_fn : String → LoadResult)
    (hload : load_fn (String.mk ((TRC.from_values isd_id version core_quorum trc_quorum
        core_isps root_cas core_ads policies registry_server_addr registry_server_cert
        root_dns_server_addr root_dns_server_cert trc_server_addr signatures
        now).toStr)) =
      LoadResult.ok ((TRC.from_values isd_id version core_quorum trc_quorum
        core_isps root_cas core_ads policies registry_server_addr registry_server_cert
        root_dns_server_addr root_dns_server_cert trc_server_addr signatures
        now).get_trc_dict true)) :
    TRC.parse TRC.init (load_fn (String.mk ((TRC.from_values isd_id version core_quorum
        trc_quorum core_isps root_cas core_ads policies registry_server_addr
        registry_server_cert root_dns_server_addr root_dns_server_cert trc_server_addr
        signatures now).toStr))) =
      ParseOutcome.done (TRC.from_values isd_id version core_quorum trc_quorum
        core_isps root_cas core_ads policies registry_server_addr registry_server_cert
        root_dns_server_addr root_dns_server_cert trc_server_addr signatures now) := by
  rw [hload]
  exact parse_of_get_trc_dict _

/-- Concrete document for the round-trip witness. -/
def docC : TRC :=
  TRC.from_values 1 2 3 4 [("i", "x")] [("r", "y")] [("AD1", "QQ==")] [("p", "q")]
    "ra" "rc" "da" "dc" "ta" [("AD1", "c2ln")] 99

/-- External json.load stub for the round-trip witness: the rendered text of
docC loads back to its dict, anything else fails to load. -/
def loadC : String → LoadResult := fun s =>
  if s = String.mk docC.toStr then LoadResult.ok (docC.get_trc_dict true)
  else LoadResult.loadError

set_option maxRecDepth 10000 in
theorem claim_round_trip_witness :
    TRC.parse TRC.init (loadC (String.mk docC.toStr)) = ParseOutcome.done docC :=
  claim_round_trip 1 2 3 4 [("i", "x")] [("r", "y")] [("AD1", "QQ==")] [("p", "q")]
    "ra" "rc" "da" "dc" "ta" [("AD1", "c2ln")] 99 loadC (by decide)

/-- C10: under the membership guard that verify checks before every call (the
signer is a key of core_ads), get_public_key never takes its absent-subject
branch: its result is never the empty-string return.  In TRC.verify the call
sits in the else branch of exactly this guard, so the branch is unreachable
from verify. -/
theorem claim_absent_branch_unreachable (t : TRC) (loads : String → Option JVal)
    (s : String) (h : (List.lookup s t.core_ads).isNone = false) :
    t.get_public_key loads s ≠ GPKResult.emptyStr :=
  gpk_ne_empty t loads s h

theorem claim_absent_branch_unreachable_witness :
    ({ TRC.init with core_ads := [("A", "")] } : TRC).get_public_key loadsStub "A"
      ≠ GPKResult.emptyStr :=
  claim_absent_branch_unreachable _ loadsStub "A" (by decide)

end TRCSpec
